import Mathlib

/-!
Verification of the macro-tracker nutrition store (src/main.py) against its
specification. The SQLite database is embedded as an explicit state value
(`DB`); each tool function of the source becomes a Lean function from the
state (plus an optional injected storage fault, modelling the `except`
branches) to the new state and the returned message string. REAL columns
are modelled as `Rat`, TEXT columns as `String`, and the per-row
`created_at` timestamp / rowid as a monotone `Nat` counter (`nextTick`),
so that creation order is observable. SQLite `LIKE` is modelled with its
`%` and `_` wildcards and its ASCII-only case folding.
-/

namespace MacroTracker

/-- ASCII lower-casing of one character, the case folding SQLite's default
`LIKE` applies (`Char.toLower` in Lean lowers exactly the range A-Z). -/
def lowerL (l : List Char) : List Char := l.map Char.toLower

/-- All suffixes of a character list, longest first (the list itself down
to the empty suffix). -/
def suffixes : List Char → List (List Char)
  | [] => [[]]
  | c :: cs => (c :: cs) :: suffixes cs

/-- SQLite `LIKE` pattern matching: `%` matches any character sequence,
`_` any single character, and other characters match ASCII
case-insensitively. Translated from SQLite's matcher, which the source
invokes through `name LIKE ?` with pattern `'%' + name + '%'`. -/
def likeMatch : List Char → List Char → Bool
  | [], cs => cs.isEmpty
  | p :: ps, cs =>
    if p = '%' then (suffixes cs).any fun t => likeMatch ps t
    else
      match cs with
      | [] => false
      | c :: cs' => (if p = '_' then true else p.toLower == c.toLower) && likeMatch ps cs'

/-- Boolean prefix test on character lists. -/
def isPrefixL : List Char → List Char → Bool
  | [], _ => true
  | _ :: _, [] => false
  | a :: as, b :: bs => a == b && isPrefixL as bs

/-- Boolean contiguous-substring test on character lists. -/
def isSubstrL (pat : List Char) : List Char → Bool
  | [] => pat.isEmpty
  | c :: t => isPrefixL pat (c :: t) || isSubstrL pat t

/-- The specification's notion of a lookup match: the stored food name
contains the queried string as a substring, compared ASCII
case-insensitively. This is the spec-side definition claim C3 is measured
against; the code-side behaviour is `likeMatch`. -/
def containsCI (hay pat : String) : Bool :=
  isSubstrL (lowerL pat.data) (lowerL hay.data)

/-- A lookup argument is wildcard-free when it holds no SQL `LIKE`
metacharacter. -/
def literalPat (l : List Char) : Prop := ∀ c ∈ l, c ≠ '%' ∧ c ≠ '_'

instance (l : List Char) : Decidable (literalPat l) := by
  unfold literalPat; infer_instance

/-- Concatenation of a list of strings, used for the rendered listings. -/
def strConcat : List String → String
  | [] => ""
  | s :: rest => s ++ strConcat rest

/-- Rendering of a numeric value interpolated into a message with no
format specifier (Python `f"{x}"`); the exact digit string is irrelevant
to every claim, only that it is a function of the value. -/
def numStr (q : Rat) : String := toString q

/-- Round half to even (the rounding of Python's `format`), to an integer. -/
def rhe (q : Rat) : Int :=
  let f : Int := q.floor
  let r : Rat := q - (f : Rat)
  if r < 1/2 then f
  else if 1/2 < r then f + 1
  else if 2 ∣ f then f else f + 1

/-- Python `f"{x:.0f}"`: the value rounded half-to-even to an integer. -/
def fmt0 (q : Rat) : String := toString (rhe q)

/-- Python `f"{x:.1f}"`: the value rounded half-to-even to one decimal. -/
def fmt1 (q : Rat) : String :=
  let n : Int := rhe (q * 10)
  (if n < 0 then "-" else "") ++ toString (n.natAbs / 10) ++ "." ++ toString (n.natAbs % 10)

/-- The leading character of a returned message: the marker a caller
inspects to classify the outcome. -/
def lead (s : String) : Option Char := s.data.head?

/-! ## Data model -/

/-- One row of the `foods` table (a Food Reference). -/
structure Food where
  id : Nat
  name : String
  calories : Rat
  protein : Rat
  carbs : Rat
  fat : Rat
  created_at : Nat
deriving DecidableEq, Repr

/-- One row of the `daily_goals` table (a Daily Goal). -/
structure Goal where
  id : Nat
  date : String
  target_calories : Rat
  target_protein : Rat
  target_carbs : Rat
  target_fat : Rat
  created_at : Nat
deriving DecidableEq, Repr

/-- One row of the `daily_intake` table (an Intake Entry).
`serving_size_g` is the pre-migration numeric column; it is meaningful
only while `DB.hasServingCol` is set, and rows inserted through
`log_food_intake` carry `0` there (the new schema has no such column). -/
structure IntakeEntry where
  id : Nat
  date : String
  food_name : String
  portion_description : String
  serving_size_g : Rat
  calories : Rat
  protein : Rat
  carbs : Rat
  fat : Rat
  meal_type : String
  created_at : Nat
deriving DecidableEq, Repr

/-- The SQLite database state. `tablesExist` records whether the three
tables have been created; `hasServingCol` / `hasPortionCol` record which
of the two generations of the `daily_intake` schema the store carries
(the columns `PRAGMA table_info` reports). `nextTick` is the monotone
counter standing for rowids and `CURRENT_TIMESTAMP` values, so
`created_at` order is insertion order. -/
structure DB where
  tablesExist : Bool
  hasServingCol : Bool
  hasPortionCol : Bool
  foods : List Food
  daily_goals : List Goal
  daily_intake : List IntakeEntry
  nextTick : Nat
deriving DecidableEq, Repr

/-- A fresh, never-initialized store. -/
def emptyDB : DB :=
  { tablesExist := false, hasServingCol := false, hasPortionCol := true,
    foods := [], daily_goals := [], daily_intake := [], nextTick := 0 }

/-! ## Operations -/

/-- Text rendering of the old numeric serving size as SQLite's REAL-to-TEXT
cast produces it in `serving_size_g || "g"`; the digit string itself is
irrelevant to the claims. -/
def servingText (v : Rat) : String := numStr v ++ "g"

/-- The backfill the one-time migration applies to one row: only the
`portion_description` field changes. -/
def migrateRow (e : IntakeEntry) : IntakeEntry :=
  { e with portion_description := servingText e.serving_size_g }

/-- `init_database` of the source: create the three tables if absent
(never destructively), then, when `daily_intake` still has the old
`serving_size_g` column and no `portion_description` column, add the new
column with default "unknown portion" and backfill it from the old value
for every row still holding the default. -/
def init_database (db : DB) : DB :=
  let db1 :=
    if db.tablesExist then db
    else { db with tablesExist := true, hasServingCol := false, hasPortionCol := true,
                   foods := [], daily_goals := [], daily_intake := [] }
  if db1.hasServingCol && !db1.hasPortionCol then
    let withDefault := db1.daily_intake.map
      fun e => { e with portion_description := "unknown portion" }
    let backfilled := withDefault.map
      fun e => if e.portion_description = "unknown portion" then migrateRow e else e
    { db1 with hasPortionCol := true, daily_intake := backfilled }
  else db1

/-- `set_daily_goals` of the source: `INSERT OR REPLACE` keyed on the
unique `date` column (the conflicting row is deleted and the fresh row
appended), date defaulting to today. `fault` injects a storage-layer
exception: the `except` branch returns the error text and, the
transaction never committing, leaves the state unchanged. -/
def set_daily_goals (db : DB) (fault : Option String) (today : String)
    (target_calories target_protein target_carbs target_fat : Rat)
    (date_str : Option String) : DB × String :=
  match fault with
  | some e => (db, "❌ Error setting goals: " ++ e)
  | none =>
    let d := date_str.getD today
    let g : Goal :=
      { id := db.nextTick, date := d, target_calories := target_calories,
        target_protein := target_protein, target_carbs := target_carbs,
        target_fat := target_fat, created_at := db.nextTick }
    ({ db with daily_goals := db.daily_goals.filter (fun x => x.date ≠ d) ++ [g],
               nextTick := db.nextTick + 1 },
     "✅ Set daily goals for " ++ d ++ ":\n🎯 " ++ numStr target_calories
       ++ " calories, " ++ numStr target_protein ++ "g protein, "
       ++ numStr target_carbs ++ "g carbs, " ++ numStr target_fat ++ "g fat")

/-- The duplicate-registration message of `add_food_to_database`. -/
def dupFoodMsg (name : String) : String :=
  "❌ Food '" ++ name ++ "' already exists in database"

/-- `add_food_to_database` of the source: a plain `INSERT`; the UNIQUE
constraint on `name` raises `IntegrityError` exactly when an equal name is
already stored, which the source reports with the distinct duplicate
message. `fault` injects any other storage exception. -/
def add_food_to_database (db : DB) (fault : Option String)
    (name : String) (calories protein carbs fat : Rat) : DB × String :=
  match fault with
  | some e => (db, "❌ Error adding food: " ++ e)
  | none =>
    if db.foods.any (fun f => f.name = name) then
      (db, dupFoodMsg name)
    else
      let f : Food :=
        { id := db.nextTick, name := name, calories := calories, protein := protein,
          carbs := carbs, fat := fat, created_at := db.nextTick }
      ({ db with foods := db.foods ++ [f], nextTick := db.nextTick + 1 },
       "✅ Added " ++ name ++ " to food database\nReference values per 100g: "
         ++ numStr calories ++ " cal, " ++ numStr protein ++ "g protein, "
         ++ numStr carbs ++ "g carbs, " ++ numStr fat ++ "g fat")

/-- The rows `SELECT * FROM foods WHERE name LIKE '%' || n || '%'` returns,
in stored (insertion) order. -/
def lookupMatches (db : DB) (n : String) : List Food :=
  db.foods.filter fun f => likeMatch ('%' :: (n.data ++ ['%'])) f.name.data

/-- The rows `SELECT * FROM foods ORDER BY name` returns. -/
def foodsSortedByName (db : DB) : List Food :=
  List.insertionSort (fun a b => a.name ≤ b.name) db.foods

instance : IsTotal Food fun a b => a.name ≤ b.name :=
  ⟨fun a b => le_total a.name b.name⟩

instance : IsTrans Food fun a b => a.name ≤ b.name :=
  ⟨fun _ _ _ h g => le_trans h g⟩

/-- One line of the food listing. -/
def foodLine (f : Food) : String :=
  "• " ++ f.name ++ ": " ++ numStr f.calories ++ "cal, " ++ numStr f.protein
    ++ "g protein, " ++ numStr f.carbs ++ "g carbs, " ++ numStr f.fat ++ "g fat\n"

/-- The food listing with its header. -/
def renderFoods (foods : List Food) : String :=
  "🍎 Food Database (per 100g)\n" ++ "==============================" ++ "\n"
    ++ strConcat (foods.map foodLine)

/-- The zero-match message of `lookup_food`. -/
def noMatchMsg (n : String) : String :=
  "❌ No foods found matching '" ++ n ++ "'"

/-- The empty-store message of `lookup_food`. -/
def noFoodsYetMsg : String :=
  "📝 No foods in database yet. Use add_food_to_database to add some."

/-- The branch of `lookup_food` taken when `name` is Python-falsy (absent
or the empty string): all foods ordered by name. -/
def lookupAll (db : DB) : String :=
  let foods := foodsSortedByName db
  if foods.isEmpty then noFoodsYetMsg else renderFoods foods

/-- `lookup_food` of the source. A truthy `name` (present and non-empty)
selects the `LIKE` query and its dedicated zero-match message; otherwise
every food is listed ordered by name, with the empty-store message when
none exist. -/
def lookup_food (db : DB) (fault : Option String) (name : Option String) : String :=
  match fault with
  | some e => "❌ Error looking up foods: " ++ e
  | none =>
    match name with
    | some n =>
      if n = "" then lookupAll db
      else
        let foods := lookupMatches db n
        if foods.isEmpty then noMatchMsg n else renderFoods foods
    | none => lookupAll db

/-- `log_food_intake` of the source: always a fresh insert, `meal_type`
defaulting to "other" and the date to today, every supplied value stored
verbatim; the confirmation message rounds calories to an integer and the
three macros to one decimal. -/
def log_food_intake (db : DB) (fault : Option String) (today : String)
    (food_name : String) (calories protein carbs fat : Rat)
    (portion_description : String) (meal_type : Option String)
    (date_str : Option String) : DB × String :=
  match fault with
  | some e => (db, "❌ Error logging food: " ++ e)
  | none =>
    let mt := meal_type.getD "other"
    let d := date_str.getD today
    let entry : IntakeEntry :=
      { id := db.nextTick, date := d, food_name := food_name,
        portion_description := portion_description, serving_size_g := 0,
        calories := calories, protein := protein, carbs := carbs, fat := fat,
        meal_type := mt, created_at := db.nextTick }
    ({ db with daily_intake := db.daily_intake ++ [entry], nextTick := db.nextTick + 1 },
     "✅ Logged " ++ portion_description ++ " of " ++ food_name ++ " for " ++ mt
       ++ "\nAdded: " ++ fmt0 calories ++ " cal, " ++ fmt1 protein ++ "g protein, "
       ++ fmt1 carbs ++ "g carbs, " ++ fmt1 fat ++ "g fat")

/-- `get_database_info` of the source; file existence, file size and the
store path live outside the relational state and enter as parameters. -/
def get_database_info (db : DB) (fault : Option String)
    (dbPath : String) (fileExists : Bool) (fileSize : Nat) : String :=
  match fault with
  | some e => "❌ Error getting database info: " ++ e
  | none =>
    let base := "📁 Database Information\n" ++ "=========================" ++ "\n"
      ++ "Location: " ++ dbPath ++ "\n"
      ++ "Exists: " ++ (if fileExists then "✅ Yes" else "❌ No") ++ "\n"
    if fileExists then
      base ++ "Size: " ++ toString fileSize ++ " bytes\n"
        ++ "\n📊 Contents:\n"
        ++ "• " ++ toString db.foods.length ++ " foods in database\n"
        ++ "• " ++ toString db.daily_intake.length ++ " food entries logged\n"
        ++ "• " ++ toString (db.daily_goals.map (fun g => g.date)).dedup.length
        ++ " days with goals set\n"
    else base

/-- The `ORDER BY meal_type, created_at` ordering of `review_meals`:
lexicographic on the meal type string (SQLite's BINARY collation agrees
with `String` order on these), then on the timestamp. -/
def mealOrder (a b : IntakeEntry) : Prop :=
  a.meal_type < b.meal_type ∨ (a.meal_type = b.meal_type ∧ a.created_at ≤ b.created_at)

instance : DecidableRel mealOrder := fun a b => by
  unfold mealOrder; infer_instance

instance : IsTotal IntakeEntry mealOrder := by
  constructor
  intro a b
  rcases lt_trichotomy a.meal_type b.meal_type with h | h | h
  · exact Or.inl (Or.inl h)
  · rcases le_total a.created_at b.created_at with h2 | h2
    · exact Or.inl (Or.inr ⟨h, h2⟩)
    · exact Or.inr (Or.inr ⟨h.symm, h2⟩)
  · exact Or.inr (Or.inl h)

instance : IsTrans IntakeEntry mealOrder := by
  constructor
  rintro a b c (h | ⟨h, h2⟩) (g | ⟨g, g2⟩)
  · exact Or.inl (lt_trans h g)
  · exact Or.inl (g ▸ h)
  · exact Or.inl (h ▸ g)
  · exact Or.inr ⟨h.trans g, le_trans h2 g2⟩

/-- The rows `SELECT ... FROM daily_intake WHERE date = d ORDER BY
meal_type, created_at` returns. -/
def mealsFor (db : DB) (d : String) : List IntakeEntry :=
  List.insertionSort mealOrder (db.daily_intake.filter fun e => e.date = d)

/-- The section heading `review_meals` prints on first encountering a meal
type. -/
def mealHeading (mt : String) : String :=
  "🍽️ " ++ mt.toUpper ++ "\n" ++ "---------------" ++ "\n"

/-- The two lines `review_meals` prints for one entry. -/
def mealLines (e : IntakeEntry) : String :=
  "• " ++ e.portion_description ++ " " ++ e.food_name ++ "\n"
    ++ "  " ++ fmt0 e.calories ++ " cal | " ++ fmt1 e.protein ++ "g protein | "
    ++ fmt1 e.carbs ++ "g carbs | " ++ fmt1 e.fat ++ "g fat\n\n"

/-- The grouping loop of `review_meals`: `cur` is `current_meal_type`, and
a heading is emitted whenever the row's meal type differs from it. -/
def renderMeals : Option String → List IntakeEntry → String
  | _, [] => ""
  | cur, e :: rest =>
    (if cur ≠ some e.meal_type then mealHeading e.meal_type else "")
      ++ mealLines e ++ renderMeals (some e.meal_type) rest

/-- The zero-entry message of `review_meals`. -/
def noMealsMsg (d : String) : String := "🍽️ No meals logged for " ++ d

/-- The header of a non-empty `review_meals` listing. -/
def mealsHeader (d : String) : String :=
  "🍽️ Meals for " ++ d ++ "\n" ++ "==============================" ++ "\n\n"

/-- `review_meals` of the source. -/
def review_meals (db : DB) (fault : Option String) (today : String)
    (date_str : Option String) : String :=
  match fault with
  | some e => "❌ Error reviewing meals: " ++ e
  | none =>
    let d := date_str.getD today
    let meals := mealsFor db d
    if meals.isEmpty then noMealsMsg d
    else mealsHeader d ++ renderMeals none meals

/-! ## The grouped view of the review listing -/

/-- The maximal runs of equal meal type, in order: the sections of the
review listing. -/
def chunksBy : List IntakeEntry → List (List IntakeEntry)
  | [] => []
  | e :: t =>
    (e :: t.takeWhile fun b => b.meal_type == e.meal_type)
      :: chunksBy (t.dropWhile fun b => b.meal_type == e.meal_type)
termination_by l => l.length
decreasing_by
  simp only [List.length_cons]
  exact Nat.lt_succ_of_le (List.dropWhile_sublist _).length_le

/-- The meal type labelling a section. -/
def chunkKey : List IntakeEntry → String
  | [] => ""
  | e :: _ => e.meal_type

/-- The text of one section: its heading once, then its rows. -/
def sectionRender (g : List IntakeEntry) : String :=
  match g with
  | [] => ""
  | e :: _ => mealHeading e.meal_type ++ strConcat (g.map mealLines)

/-- The Food row a successful registration inserts. -/
def newFood (db : DB) (name : String) (c p b f : Rat) : Food :=
  { id := db.nextTick, name := name, calories := c, protein := p, carbs := b, fat := f,
    created_at := db.nextTick }

/-- The stored food of the C3 counterexample, named "ab". -/
def wildcardFood : Food :=
  { id := 0, name := "ab", calories := 1, protein := 1, carbs := 1, fat := 1, created_at := 0 }

/-- A store holding only `wildcardFood`. -/
def wildcardDB : DB := { emptyDB with tablesExist := true, foods := [wildcardFood] }

/-- The store of the C3 witness: two foods, one matching "an" only through
case folding. -/
def c3db : DB :=
  { emptyDB with tablesExist := true,
                 foods := [{ id := 0, name := "Banana", calories := 89, protein := 1,
                             carbs := 23, fat := 0, created_at := 0 },
                           { id := 1, name := "rice", calories := 130, protein := 2,
                             carbs := 28, fat := 0, created_at := 1 }] }

/-- The Intake Entry a successful Log Intake call stores. -/
def loggedEntry (db : DB) (today fn pd : String) (c p b f : Rat) (mt : String)
    (ds : Option String) : IntakeEntry :=
  { id := db.nextTick, date := ds.getD today, food_name := fn, portion_description := pd,
    serving_size_g := 0, calories := c, protein := p, carbs := b, fat := f,
    meal_type := mt, created_at := db.nextTick }

/-- An old-schema store with one intake row, for the C7 witness. -/
def oldRow : IntakeEntry :=
  { id := 1, date := "2024-01-01", food_name := "rice", portion_description := "",
    serving_size_g := 200, calories := 260, protein := 5, carbs := 57, fat := 1,
    meal_type := "lunch", created_at := 1 }

/-- The old-schema store of the C7 witness. -/
def oldDB : DB :=
  { tablesExist := true, hasServingCol := true, hasPortionCol := false, foods := [],
    daily_goals := [], daily_intake := [oldRow], nextTick := 2 }

/-- An already-migrated store (both columns present), for the C7 witness. -/
def migDB : DB :=
  { tablesExist := true, hasServingCol := true, hasPortionCol := true, foods := [],
    daily_goals := [], daily_intake := [migrateRow oldRow], nextTick := 2 }

/-! ## Helper lemmas about the LIKE matcher -/

theorem nil_mem_suffixes (cs : List Char) : [] ∈ suffixes cs := by
  induction cs with
  | nil => simp [suffixes]
  | cons c cs ih => simp [suffixes, ih]

theorem self_mem_suffixes (cs : List Char) : cs ∈ suffixes cs := by
  cases cs <;> simp [suffixes]

theorem likeMatch_pct (ps cs : List Char) :
    likeMatch ('%' :: ps) cs = (suffixes cs).any fun t => likeMatch ps t := by
  show (if '%' = '%' then _ else _) = _
  rw [if_pos rfl]

theorem likeMatch_cons_nil (p : Char) (ps : List Char) (h : p ≠ '%') :
    likeMatch (p :: ps) [] = false := by
  show (if p = '%' then _ else _) = _
  rw [if_neg h]

theorem likeMatch_cons_cons (p : Char) (ps : List Char) (c : Char) (cs : List Char)
    (h : p ≠ '%') :
    likeMatch (p :: ps) (c :: cs)
      = ((if p = '_' then true else p.toLower == c.toLower) && likeMatch ps cs) := by
  show (if p = '%' then _ else _) = _
  rw [if_neg h]

theorem likeMatch_nil_pct (cs : List Char) : likeMatch ['%'] cs = true := by
  rw [likeMatch_pct]
  simp only [List.any_eq_true]
  exact ⟨[], nil_mem_suffixes cs, by simp [likeMatch]⟩

theorem isPrefixL_nil (q : List Char) : isPrefixL q [] = q.isEmpty := by
  cases q <;> simp [isPrefixL]

theorem likeMatch_lit_pct (p : List Char) (hp : literalPat p) :
    ∀ cs, likeMatch (p ++ ['%']) cs = isPrefixL (lowerL p) (lowerL cs) := by
  induction p with
  | nil =>
    intro cs
    simp [likeMatch_nil_pct, lowerL, isPrefixL]
  | cons a p ih =>
    intro cs
    obtain ⟨ha1, ha2⟩ := hp a (by simp)
    have hp' : literalPat p := fun c hc => hp c (by simp [hc])
    cases cs with
    | nil =>
      rw [List.cons_append, likeMatch_cons_nil a _ ha1]
      simp [lowerL, isPrefixL]
    | cons c cs' =>
      rw [List.cons_append, likeMatch_cons_cons a _ c cs' ha1, if_neg ha2]
      simp [lowerL, isPrefixL, ih hp' cs']

theorem likeMatch_wrap_lit (p : List Char) (hp : literalPat p) :
    ∀ cs, likeMatch ('%' :: (p ++ ['%'])) cs = isSubstrL (lowerL p) (lowerL cs) := by
  intro cs
  induction cs with
  | nil =>
    rw [likeMatch_pct]
    simp [suffixes, likeMatch_lit_pct p hp, isSubstrL, lowerL, isPrefixL_nil]
  | cons c cs' ih =>
    rw [likeMatch_pct] at ih ⊢
    show (suffixes (c :: cs')).any _ = _
    rw [show suffixes (c :: cs') = (c :: cs') :: suffixes cs' from rfl, List.any_cons, ih,
      likeMatch_lit_pct p hp]
    show _ = isSubstrL (lowerL p) (lowerL (c :: cs'))
    simp [isSubstrL, lowerL]

theorem likeMatch_fst (ps cs : List Char) (h : likeMatch ps cs = true) :
    likeMatch ('%' :: ps) cs = true := by
  rw [likeMatch_pct]
  simp only [List.any_eq_true]
  exact ⟨cs, self_mem_suffixes cs, h⟩

theorem likeMatch_self (n : List Char) : likeMatch (n ++ ['%']) n = true := by
  induction n with
  | nil => exact likeMatch_nil_pct []
  | cons c n ih =>
    by_cases hc : c = '%'
    · subst hc
      rw [List.cons_append, likeMatch_pct]
      simp only [List.any_eq_true]
      refine ⟨n, ?_, ih⟩
      simp [suffixes, self_mem_suffixes]
    · rw [List.cons_append, likeMatch_cons_cons c _ c n hc]
      by_cases hd : c = '_' <;> simp [hd, ih]

theorem likeMatch_wrap_self (n : List Char) : likeMatch ('%' :: (n ++ ['%'])) n = true :=
  likeMatch_fst _ _ (likeMatch_self n)

/-! ## Helper lemmas about rendered output -/

theorem str_empty_append (s : String) : "" ++ s = s := by
  apply String.ext
  simp [String.data_append]

theorem strConcat_map_mem {α} (f : α → String) {x : α} :
    ∀ {l : List α}, x ∈ l → ∃ pre post, strConcat (l.map f) = pre ++ (f x ++ post) := by
  intro l
  induction l with
  | nil => intro h; cases h
  | cons a t ih =>
    intro h
    rcases List.mem_cons.mp h with rfl | hx
    · exact ⟨"", strConcat (t.map f), by simp [strConcat, str_empty_append]⟩
    · obtain ⟨pre, post, hpp⟩ := ih hx
      exact ⟨f a ++ pre, post, by simp [strConcat, hpp, String.append_assoc]⟩

theorem renderMeals_mem {e : IntakeEntry} :
    ∀ {l : List IntakeEntry} (cur : Option String), e ∈ l →
      ∃ pre post, renderMeals cur l = pre ++ (mealLines e ++ post) := by
  intro l
  induction l with
  | nil => intro cur h; cases h
  | cons a t ih =>
    intro cur h
    rcases List.mem_cons.mp h with rfl | hx
    · exact ⟨(if cur ≠ some e.meal_type then mealHeading e.meal_type else ""),
        renderMeals (some e.meal_type) t, by simp [renderMeals, String.append_assoc]⟩
    · obtain ⟨pre, post, hpp⟩ := ih (some a.meal_type) hx
      refine ⟨(if cur ≠ some a.meal_type then mealHeading a.meal_type else "")
        ++ mealLines a ++ pre, post, ?_⟩
      simp [renderMeals, hpp, String.append_assoc]

theorem chunksBy_flatten : ∀ l : List IntakeEntry, (chunksBy l).flatten = l
  | [] => by simp [chunksBy]
  | e :: t => by
    rw [chunksBy]
    rw [List.flatten_cons,
      chunksBy_flatten (t.dropWhile fun b => b.meal_type == e.meal_type),
      List.cons_append, List.takeWhile_append_dropWhile]
termination_by l => l.length
decreasing_by
  simp only [List.length_cons]
  exact Nat.lt_succ_of_le (List.dropWhile_sublist _).length_le

theorem chunksBy_sublist : ∀ l : List IntakeEntry, ∀ g ∈ chunksBy l, g.Sublist l
  | [] => by simp [chunksBy]
  | e :: t => by
    rw [chunksBy]
    intro g hg
    rcases List.mem_cons.mp hg with rfl | hg'
    · exact List.Sublist.cons₂ e (List.takeWhile_sublist _)
    · exact ((chunksBy_sublist _ g hg').trans (List.dropWhile_sublist _)).cons e
termination_by l => l.length
decreasing_by
  simp only [List.length_cons]
  exact Nat.lt_succ_of_le (List.dropWhile_sublist _).length_le

theorem chunksBy_const : ∀ l : List IntakeEntry, ∀ g ∈ chunksBy l,
    g ≠ [] ∧ ∀ a ∈ g, a.meal_type = chunkKey g
  | [] => by simp [chunksBy]
  | e :: t => by
    rw [chunksBy]
    intro g hg
    rcases List.mem_cons.mp hg with rfl | hg'
    · refine ⟨by simp, ?_⟩
      intro a ha
      show a.meal_type = e.meal_type
      rcases List.mem_cons.mp ha with rfl | ha'
      · rfl
      · have h2 := List.mem_takeWhile_imp ha'
        exact beq_iff_eq.mp h2
    · exact chunksBy_const _ g hg'
termination_by l => l.length
decreasing_by
  simp only [List.length_cons]
  exact Nat.lt_succ_of_le (List.dropWhile_sublist _).length_le

theorem dropWhile_head_not (p : IntakeEntry → Bool) :
    ∀ (l : List IntakeEntry) (b : IntakeEntry),
      (l.dropWhile p).head? = some b → p b = false := by
  intro l
  induction l with
  | nil => intro b h; simp [List.dropWhile] at h
  | cons a t ih =>
    intro b h
    by_cases hp : p a
    · rw [List.dropWhile_cons_of_pos hp] at h
      exact ih b h
    · rw [List.dropWhile_cons_of_neg hp] at h
      simp only [List.head?_cons, Option.some.injEq] at h
      subst h
      exact Bool.eq_false_iff.mpr hp

theorem renderMeals_run (mt : String) :
    ∀ (run rest : List IntakeEntry), (∀ e ∈ run, e.meal_type = mt) →
      renderMeals (some mt) (run ++ rest)
        = strConcat (run.map mealLines) ++ renderMeals (some mt) rest := by
  intro run
  induction run with
  | nil =>
    intro rest _
    simp [strConcat, str_empty_append]
  | cons e run ih =>
    intro rest h
    have he : e.meal_type = mt := h e (by simp)
    have := ih rest fun x hx => h x (by simp [hx])
    simp [renderMeals, he, strConcat, this, String.append_assoc, str_empty_append]

theorem renderMeals_grouped :
    ∀ (l : List IntakeEntry) (cur : Option String),
      (∀ e, l.head? = some e → cur ≠ some e.meal_type) →
      renderMeals cur l = strConcat ((chunksBy l).map sectionRender)
  | [], cur, _ => by simp [chunksBy, renderMeals, strConcat]
  | e :: t, cur, hcur => by
    have hne : cur ≠ some e.meal_type := hcur e rfl
    have hrun : ∀ x ∈ t.takeWhile fun b => b.meal_type == e.meal_type,
        x.meal_type = e.meal_type := by
      intro x hx
      have h2 := List.mem_takeWhile_imp hx
      exact beq_iff_eq.mp h2
    have hsplit := List.takeWhile_append_dropWhile
      (fun b => b.meal_type == e.meal_type) t
    have hrest : ∀ b, (t.dropWhile fun x => x.meal_type == e.meal_type).head? = some b →
        (some e.meal_type : Option String) ≠ some b.meal_type := by
      intro b hb hcontra
      have := dropWhile_head_not _ t b hb
      rw [Option.some.injEq] at hcontra
      simp [← hcontra] at this
    rw [chunksBy]
    simp only [List.map_cons]
    rw [show strConcat (sectionRender (e :: (t.takeWhile fun b => b.meal_type == e.meal_type))
          :: ((chunksBy (t.dropWhile fun b => b.meal_type == e.meal_type)).map sectionRender))
        = sectionRender (e :: (t.takeWhile fun b => b.meal_type == e.meal_type))
          ++ strConcat ((chunksBy (t.dropWhile fun b => b.meal_type == e.meal_type)).map
            sectionRender) from rfl]
    rw [← renderMeals_grouped (t.dropWhile fun b => b.meal_type == e.meal_type)
      (some e.meal_type) hrest]
    show renderMeals cur (e :: t) = _
    rw [renderMeals, if_pos hne]
    conv_lhs => rw [← hsplit]
    rw [renderMeals_run e.meal_type _ _ hrun]
    rw [sectionRender]
    simp [strConcat, String.append_assoc]
termination_by l => l.length
decreasing_by
  simp only [List.length_cons]
  exact Nat.lt_succ_of_le (List.dropWhile_sublist _).length_le

theorem mealOrder_le {a b : IntakeEntry} (h : mealOrder a b) : a.meal_type ≤ b.meal_type := by
  rcases h with h | ⟨h, _⟩
  · exact le_of_lt h
  · exact le_of_eq h

theorem chunksBy_keys_sorted : ∀ l : List IntakeEntry, List.Sorted mealOrder l →
    ((chunksBy l).map chunkKey).Pairwise (fun a b => a < b)
  | [], _ => by simp [chunksBy]
  | e :: t, hs => by
    obtain ⟨hall, hst⟩ := List.sorted_cons.mp hs
    have hsrest : List.Sorted mealOrder (t.dropWhile fun b => b.meal_type == e.meal_type) :=
      List.Pairwise.sublist (List.dropWhile_sublist _) hst
    have hlt_all : ∀ x ∈ t.dropWhile fun b => b.meal_type == e.meal_type,
        e.meal_type < x.meal_type := by
      cases hdw : t.dropWhile fun b => b.meal_type == e.meal_type with
      | nil => intro x hx; simp at hx
      | cons b r2 =>
        have hbmem : b ∈ t := (List.dropWhile_sublist _).subset (by rw [hdw]; simp)
        have hbne : (b.meal_type == e.meal_type) = false := by
          apply dropWhile_head_not (fun x => x.meal_type == e.meal_type) t
          rw [hdw]; rfl
        have heb : e.meal_type < b.meal_type := by
          rcases hall b hbmem with h | ⟨h, -⟩
          · exact h
          · exfalso
            rw [beq_eq_false_iff_ne] at hbne
            exact hbne h.symm
        have hsb : List.Sorted mealOrder (b :: r2) := by rw [← hdw]; exact hsrest
        intro x hx
        rcases List.mem_cons.mp hx with rfl | hx2
        · exact heb
        · exact lt_of_lt_of_le heb (mealOrder_le ((List.sorted_cons.mp hsb).1 x hx2))
    rw [chunksBy]
    simp only [List.map_cons]
    rw [List.pairwise_cons]
    constructor
    · intro k hk
      obtain ⟨g, hg, rfl⟩ := List.mem_map.mp hk
      obtain ⟨hgne, -⟩ := chunksBy_const _ g hg
      cases g with
      | nil => exact absurd rfl hgne
      | cons a g' =>
        have ha : a ∈ t.dropWhile fun b => b.meal_type == e.meal_type := by
          rw [← chunksBy_flatten (t.dropWhile fun b => b.meal_type == e.meal_type)]
          exact List.mem_flatten.mpr ⟨a :: g', hg, by simp⟩
        exact hlt_all a ha
    · exact chunksBy_keys_sorted _ hsrest
termination_by l => l.length
decreasing_by
  simp only [List.length_cons]
  exact Nat.lt_succ_of_le (List.dropWhile_sublist _).length_le

theorem chunksBy_created_sorted (l : List IntakeEntry) (hs : List.Sorted mealOrder l) :
    ∀ g ∈ chunksBy l, g.Pairwise fun a b => a.created_at ≤ b.created_at := by
  intro g hg
  have hsub := chunksBy_sublist l g hg
  have hpg : g.Pairwise mealOrder := List.Pairwise.sublist hsub hs
  obtain ⟨-, hconst⟩ := chunksBy_const l g hg
  refine hpg.imp_of_mem ?_
  intro a b ha hb hab
  rcases hab with h | ⟨-, h⟩
  · exfalso
    rw [hconst a ha, hconst b hb] at h
    exact lt_irrefl _ h
  · exact h

theorem renderFoods_mem {x : Food} {l : List Food} (hx : x ∈ l) :
    ∃ pre post, renderFoods l = pre ++ (foodLine x ++ post) := by
  obtain ⟨pre, post, h⟩ := strConcat_map_mem foodLine hx
  refine ⟨"🍎 Food Database (per 100g)\n" ++ "==============================" ++ "\n" ++ pre,
    post, ?_⟩
  rw [renderFoods, h]
  simp [String.append_assoc]

theorem dup_ne_generic (name e : String) :
    dupFoodMsg name ≠ "❌ Error adding food: " ++ e := by
  intro h
  have h2 := congrArg (fun s => s.data[2]?) h
  dsimp only at h2
  have hl : (dupFoodMsg name).data[2]? = some 'F' := by
    rw [dupFoodMsg, String.data_append, String.data_append]
    rfl
  have hr : ("❌ Error adding food: " ++ e).data[2]? = some 'E' := by
    rw [String.data_append]
    rfl
  rw [hl, hr] at h2
  exact absurd h2 (by decide)

/-! ## Claim theorems -/

/-- C10: Lookup Food called with the empty string as the name argument
behaves exactly as if the name were omitted: the empty string is
Python-falsy, so the call takes the no-name branch, and the returned text
is identical to that of a call with no name, for every store state and
every injected fault; in particular it is never the zero-match message. -/
theorem c10_lookup_empty_string_is_omitted (db : DB) (fault : Option String) :
    lookup_food db fault (some "") = lookup_food db fault none := by
  cases fault <;> rfl

/-- C9 (amended): the stored meal type of a successful Log Intake call is
exactly the caller-supplied string, unvalidated; it is "other" exactly
when the caller leaves the argument unspecified. Membership in the
documented five-value set is not enforced by the code. -/
theorem c9_meal_type_stored_verbatim (db : DB) (today fn pd : String)
    (c p b f : Rat) (mt ds : Option String) :
    (log_food_intake db none today fn c p b f pd mt ds).1.daily_intake
      = db.daily_intake ++
        [{ id := db.nextTick, date := ds.getD today, food_name := fn,
           portion_description := pd, serving_size_g := 0, calories := c, protein := p,
           carbs := b, fat := f, meal_type := mt.getD "other",
           created_at := db.nextTick }] := by
  rfl

/-- C9 counterexample: a successful Log Intake call with meal type
"brunch" stores "brunch", which is none of breakfast, lunch, dinner,
snack or other — the claimed invariant fails. -/
theorem c9_counterexample :
    ((log_food_intake emptyDB none "2024-01-01" "toast" 100 1 20 2 "1 slice"
        (some "brunch") none).1.daily_intake.map fun e => e.meal_type) = ["brunch"]
    ∧ "brunch" ∉ ["breakfast", "lunch", "dinner", "snack", "other"] := by
  exact ⟨rfl, by decide⟩

/-- C1: a Set Daily Goal call leaves exactly one Daily Goal row for its
date (the fresh row, all four targets from that call) and leaves the rows
of every other date unchanged — so any sequence of calls maintains at
most one row per date; and two calls for the same date leave exactly one
row for it, the second call's record entire, nothing from the first. -/
theorem c1_set_goals_full_replace (db : DB) (today : String)
    (c1 p1 b1 f1 c2 p2 b2 f2 : Rat) (ds : Option String) (d' : String) :
    (((set_daily_goals db none today c1 p1 b1 f1 ds).1.daily_goals.filter
        fun g => g.date = d')
      = (if d' = ds.getD today
         then [{ id := db.nextTick, date := ds.getD today, target_calories := c1,
                 target_protein := p1, target_carbs := b1, target_fat := f1,
                 created_at := db.nextTick }]
         else db.daily_goals.filter fun g => g.date = d'))
    ∧ ((set_daily_goals (set_daily_goals db none today c1 p1 b1 f1 ds).1
          none today c2 p2 b2 f2 ds).1.daily_goals.filter
        fun g => g.date = ds.getD today)
      = [{ id := db.nextTick + 1, date := ds.getD today, target_calories := c2,
           target_protein := p2, target_carbs := b2, target_fat := f2,
           created_at := db.nextTick + 1 }] := by
  constructor
  · simp only [set_daily_goals, List.filter_append, List.filter_filter]
    by_cases hd : d' = ds.getD today
    · subst hd
      simp
    · simp only [if_neg hd]
      have h1 : List.filter (fun g : Goal => decide (g.date = d')
          && decide ¬g.date = ds.getD today) db.daily_goals
          = db.daily_goals.filter fun g => g.date = d' := by
        apply List.filter_congr
        intro a _
        by_cases h : a.date = d'
        · simp [h]
          exact hd
        · simp [h]
      rw [h1]
      simp
      exact fun hh => hd hh.symm
  · simp only [set_daily_goals, List.filter_append, List.filter_filter]
    simp

/-- C2: Register Food yields the distinct duplicate failure exactly when
the name already exists (leaving the store unchanged); with a new name it
succeeds, appends exactly one row — updating nothing — and a subsequent
Lookup Food with that exact name renders a line for the new food (through
the LIKE branch when the name is truthy, through the full listing when the
name is the empty string); and the duplicate message differs from every
generic failure message. -/
theorem c2_register_food (db : DB) (name : String) (c p b f : Rat) :
    (if db.foods.any fun g => g.name = name then
        (add_food_to_database db none name c p b f).1 = db
          ∧ (add_food_to_database db none name c p b f).2 = dupFoodMsg name
      else
        (add_food_to_database db none name c p b f).1.foods
            = db.foods ++ [newFood db name c p b f]
          ∧ lead (add_food_to_database db none name c p b f).2 = some '✅'
          ∧ ∃ pre post,
              lookup_food (add_food_to_database db none name c p b f).1 none (some name)
                = pre ++ (foodLine (newFood db name c p b f) ++ post))
    ∧ ∀ e, dupFoodMsg name ≠ "❌ Error adding food: " ++ e := by
  refine ⟨?_, fun e => dup_ne_generic name e⟩
  by_cases h : db.foods.any fun g => g.name = name
  · rw [if_pos h]
    constructor
    · show (if db.foods.any fun g => g.name = name then _ else _ : DB × String).1 = db
      rw [if_pos h]
    · show (if db.foods.any fun g => g.name = name then _ else _ : DB × String).2
        = dupFoodMsg name
      rw [if_pos h]
  · rw [if_neg h]
    have hfoods : (add_food_to_database db none name c p b f).1.foods
        = db.foods ++ [newFood db name c p b f] := by
      show (if db.foods.any fun g => g.name = name then _ else _ : DB × String).1.foods = _
      rw [if_neg h]
      rfl
    refine ⟨hfoods, ?_, ?_⟩
    · show lead (if db.foods.any fun g => g.name = name then _ else _ : DB × String).2
        = some '✅'
      rw [if_neg h]
      rfl
    · have hF : newFood db name c p b f
          ∈ (add_food_to_database db none name c p b f).1.foods := by
        rw [hfoods]
        exact List.mem_append_right _ (by simp)
      by_cases hname : name = ""
      · subst hname
        show ∃ pre post, lookupAll (add_food_to_database db none "" c p b f).1 = _
        rw [lookupAll]
        have hmem : newFood db "" c p b f
            ∈ foodsSortedByName (add_food_to_database db none "" c p b f).1 :=
          (List.perm_insertionSort _ _).mem_iff.mpr hF
        rw [if_neg (by simp [List.isEmpty_eq_false.mpr (List.ne_nil_of_mem hmem)])]
        exact renderFoods_mem hmem
      · have hmem : newFood db name c p b f
            ∈ lookupMatches (add_food_to_database db none name c p b f).1 name := by
          rw [lookupMatches, List.mem_filter]
          exact ⟨hF, likeMatch_wrap_self name.data⟩
        have hlf : lookup_food (add_food_to_database db none name c p b f).1 none (some name)
            = if name = "" then lookupAll (add_food_to_database db none name c p b f).1
              else
                if (lookupMatches (add_food_to_database db none name c p b f).1 name).isEmpty
                then noMatchMsg name
                else renderFoods (lookupMatches (add_food_to_database db none name c p b f).1
                  name) := rfl
        rw [hlf, if_neg hname,
          if_neg (by simp [List.isEmpty_eq_false.mpr (List.ne_nil_of_mem hmem)])]
        exact renderFoods_mem hmem

/-- C3 counterexample: the lookup argument "a%b" is passed into the LIKE
pattern unescaped, so the food named "ab" is returned although "ab" does
not contain "a%b" as a substring — the returned set is not exactly the
substring matches. -/
theorem c3_counterexample :
    wildcardFood ∈ lookupMatches wildcardDB "a%b"
    ∧ containsCI wildcardFood.name "a%b" = false := by
  exact ⟨by decide, by decide⟩

/-- C3 (amended): with no name the listing is every stored food ordered by
name ascending; with a wildcard-free name (no `%`, no `_`) the query
returns exactly the foods whose name contains the argument as an
ASCII-case-insensitive substring, in stored order, and the listing renders
exactly those. For names holding LIKE metacharacters the wildcard
semantics applies instead (see the counterexample). -/
theorem c3_lookup_exact (db : DB) (n : String) :
    (foodsSortedByName db).Perm db.foods
    ∧ List.Sorted (fun a b : Food => a.name ≤ b.name) (foodsSortedByName db)
    ∧ (db.foods ≠ [] → lookup_food db none none = renderFoods (foodsSortedByName db))
    ∧ (literalPat n.data →
        ∀ g : Food, g ∈ lookupMatches db n ↔ g ∈ db.foods ∧ containsCI g.name n = true)
    ∧ (n ≠ "" → lookupMatches db n ≠ [] →
        lookup_food db none (some n) = renderFoods (lookupMatches db n)) := by
  refine ⟨List.perm_insertionSort _ _, List.sorted_insertionSort _ _, ?_, ?_, ?_⟩
  · intro hne
    have hsne : foodsSortedByName db ≠ [] := by
      intro h0
      apply hne
      have hperm := List.perm_insertionSort (fun a b : Food => a.name ≤ b.name) db.foods
      rw [foodsSortedByName] at h0
      rw [h0] at hperm
      have := hperm.length_eq
      simpa using (List.length_eq_zero.mp this.symm)
    show lookupAll db = _
    rw [lookupAll, if_neg (by simp [List.isEmpty_eq_false.mpr hsne])]
  · intro hlit g
    rw [lookupMatches, List.mem_filter, likeMatch_wrap_lit n.data hlit g.name.data]
    exact Iff.rfl
  · intro hne hmatches
    have hlf : lookup_food db none (some n)
        = if n = "" then lookupAll db
          else
            if (lookupMatches db n).isEmpty then noMatchMsg n
            else renderFoods (lookupMatches db n) := rfl
    rw [hlf, if_neg hne, if_neg (by simp [List.isEmpty_eq_false.mpr hmatches])]

/-- C3 witness: the amended theorem applied to the concrete store `c3db`
and the wildcard-free name "an", every hypothesis discharged by
evaluation. -/
theorem c3_witness :
    ("an" ≠ "" ∧ literalPat "an".data ∧ lookupMatches c3db "an" ≠ [] ∧ c3db.foods ≠ [])
    ∧ (∀ g : Food, g ∈ lookupMatches c3db "an"
        ↔ g ∈ c3db.foods ∧ containsCI g.name "an" = true)
    ∧ lookup_food c3db none (some "an") = renderFoods (lookupMatches c3db "an")
    ∧ lookup_food c3db none none = renderFoods (foodsSortedByName c3db) := by
  refine ⟨⟨by decide, by decide, by decide, by decide⟩, ?_, ?_, ?_⟩
  · exact (c3_lookup_exact c3db "an").2.2.2.1 (by decide)
  · exact (c3_lookup_exact c3db "an").2.2.2.2 (by decide) (by decide)
  · exact (c3_lookup_exact c3db "an").2.2.1 (by decide)

/-- C4 counterexample: Lookup Food with the name "apple" against a store
with zero Food References returns the zero-match message, not the claimed
"no foods yet" message. -/
theorem c4_counterexample :
    emptyDB.foods = []
    ∧ lookup_food emptyDB none (some "apple") = noMatchMsg "apple"
    ∧ noMatchMsg "apple" ≠ noFoodsYetMsg := by
  refine ⟨rfl, rfl, ?_⟩
  intro h
  have h2 := congrArg lead h
  rw [show lead (noMatchMsg "apple") = some '❌' from rfl,
    show lead noFoodsYetMsg = some '📝' from rfl] at h2
  exact absurd h2 (by decide)

/-- C4 (amended): with a truthy name and zero matching rows — including
when the store is entirely empty — the text is the "no foods found
matching" message; the "no foods yet" message appears exactly on the
falsy-name branch against an empty store; and the two texts are
distinguishable, already by their leading marker. -/
theorem c4_empty_result_texts (db : DB) (n : String) :
    (n ≠ "" → lookupMatches db n = [] → lookup_food db none (some n) = noMatchMsg n)
    ∧ (db.foods = [] → lookup_food db none none = noFoodsYetMsg)
    ∧ noMatchMsg n ≠ noFoodsYetMsg
    ∧ lead (noMatchMsg n) = some '❌' ∧ lead noFoodsYetMsg = some '📝' := by
  refine ⟨?_, ?_, ?_, rfl, rfl⟩
  · intro hne hmz
    have hlf : lookup_food db none (some n)
        = if n = "" then lookupAll db
          else
            if (lookupMatches db n).isEmpty then noMatchMsg n
            else renderFoods (lookupMatches db n) := rfl
    rw [hlf, if_neg hne, if_pos (by simp [List.isEmpty_iff, hmz])]
  · intro h0
    show lookupAll db = _
    rw [lookupAll, foodsSortedByName, h0]
    rfl
  · intro h
    have h2 := congrArg lead h
    rw [show lead (noMatchMsg n) = some '❌' from rfl,
      show lead noFoodsYetMsg = some '📝' from rfl] at h2
    exact absurd h2 (by decide)

/-- C4 witness: the amended theorem applied to the empty store and the
name "apple", hypotheses discharged by evaluation. -/
theorem c4_witness :
    ("apple" ≠ "" ∧ lookupMatches emptyDB "apple" = [] ∧ emptyDB.foods = [])
    ∧ lookup_food emptyDB none (some "apple") = noMatchMsg "apple"
    ∧ lookup_food emptyDB none none = noFoodsYetMsg
    ∧ noMatchMsg "apple" ≠ noFoodsYetMsg := by
  exact ⟨⟨by decide, rfl, rfl⟩,
    (c4_empty_result_texts emptyDB "apple").1 (by decide) rfl,
    (c4_empty_result_texts emptyDB "apple").2.1 rfl,
    (c4_empty_result_texts emptyDB "apple").2.2.1⟩

/-- C5: a successful Log Intake stores the supplied calories, protein,
carbs, fat, portion description and meal type verbatim, at full precision;
a subsequent Review Meals for the entry's date renders that entry's block,
and the block shows exactly the stored values, altered only by the
documented display rounding — calories through `fmt0` (integer), the three
macros through `fmt1` (one decimal). -/
theorem c5_log_review_roundtrip (db : DB) (today today2 fn pd mt : String)
    (c p b f : Rat) (ds : Option String) :
    (log_food_intake db none today fn c p b f pd (some mt) ds).1.daily_intake
      = db.daily_intake ++ [loggedEntry db today fn pd c p b f mt ds]
    ∧ (∃ pre post,
        review_meals (log_food_intake db none today fn c p b f pd (some mt) ds).1
            none today2 (some (ds.getD today))
          = pre ++ (mealLines (loggedEntry db today fn pd c p b f mt ds) ++ post))
    ∧ mealLines (loggedEntry db today fn pd c p b f mt ds)
        = "• " ++ pd ++ " " ++ fn ++ "\n"
          ++ "  " ++ fmt0 c ++ " cal | " ++ fmt1 p ++ "g protein | "
          ++ fmt1 b ++ "g carbs | " ++ fmt1 f ++ "g fat\n\n" := by
  refine ⟨rfl, ?_, rfl⟩
  have hEmem : loggedEntry db today fn pd c p b f mt ds
      ∈ mealsFor (log_food_intake db none today fn c p b f pd (some mt) ds).1
        (ds.getD today) := by
    rw [mealsFor]
    apply (List.perm_insertionSort mealOrder _).mem_iff.mpr
    rw [List.mem_filter]
    constructor
    · show loggedEntry db today fn pd c p b f mt ds
        ∈ db.daily_intake ++ [loggedEntry db today fn pd c p b f mt ds]
      exact List.mem_append_right _ (by simp)
    · simp [loggedEntry]
  have hmne : mealsFor (log_food_intake db none today fn c p b f pd (some mt) ds).1
      (ds.getD today) ≠ [] := List.ne_nil_of_mem hEmem
  have hrev : review_meals (log_food_intake db none today fn c p b f pd (some mt) ds).1
      none today2 (some (ds.getD today))
      = mealsHeader (ds.getD today)
        ++ renderMeals none (mealsFor
            (log_food_intake db none today fn c p b f pd (some mt) ds).1
            (ds.getD today)) := by
    show (if (mealsFor (log_food_intake db none today fn c p b f pd (some mt) ds).1
          (ds.getD today)).isEmpty
        then noMealsMsg (ds.getD today)
        else mealsHeader (ds.getD today)
          ++ renderMeals none (mealsFor
              (log_food_intake db none today fn c p b f pd (some mt) ds).1
              (ds.getD today))) = _
    rw [if_neg (by simp [List.isEmpty_eq_false.mpr hmne])]
  obtain ⟨pre, post, hpp⟩ := renderMeals_mem none hEmem
  exact ⟨mealsHeader (ds.getD today) ++ pre, post,
    by rw [hrev, hpp, String.append_assoc]⟩

/-- C6: Review Meals for a date returns exactly the entries logged for it:
the rendered row list is a permutation of the stored rows of that date,
sorted by meal type lexicographically and by the creation counter inside
equal meal types; the output is the concatenation of contiguous sections —
the maximal runs of equal meal type — each section emitting its heading
once, with the section labels strictly increasing (hence one section per
meal type, opened on first encounter) and the rows inside a section in
insertion order; for a date with zero entries the output is exactly the
single "no meals logged" message. -/
theorem c6_review_grouped (db : DB) (today : String) (ds : Option String) :
    (mealsFor db (ds.getD today)).Perm
        (db.daily_intake.filter fun e => e.date = ds.getD today)
    ∧ List.Sorted mealOrder (mealsFor db (ds.getD today))
    ∧ (chunksBy (mealsFor db (ds.getD today))).flatten = mealsFor db (ds.getD today)
    ∧ (∀ g ∈ chunksBy (mealsFor db (ds.getD today)),
        g ≠ [] ∧ (∀ a ∈ g, a.meal_type = chunkKey g)
          ∧ g.Pairwise fun a b => a.created_at ≤ b.created_at)
    ∧ ((chunksBy (mealsFor db (ds.getD today))).map chunkKey).Pairwise (fun a b => a < b)
    ∧ review_meals db none today ds
        = (if (mealsFor db (ds.getD today)).isEmpty
           then noMealsMsg (ds.getD today)
           else mealsHeader (ds.getD today)
             ++ strConcat ((chunksBy (mealsFor db (ds.getD today))).map sectionRender)) := by
  have hperm := List.perm_insertionSort mealOrder
    (db.daily_intake.filter fun e => e.date = ds.getD today)
  have hsort := List.sorted_insertionSort mealOrder
    (db.daily_intake.filter fun e => e.date = ds.getD today)
  refine ⟨hperm, hsort, chunksBy_flatten _, ?_, chunksBy_keys_sorted _ hsort, ?_⟩
  · intro g hg
    obtain ⟨h1, h2⟩ := chunksBy_const _ g hg
    exact ⟨h1, h2, chunksBy_created_sorted _ hsort g hg⟩
  · show (if (mealsFor db (ds.getD today)).isEmpty then noMealsMsg (ds.getD today)
      else mealsHeader (ds.getD today)
        ++ renderMeals none (mealsFor db (ds.getD today))) = _
    by_cases hm : (mealsFor db (ds.getD today)).isEmpty
    · rw [if_pos hm, if_pos hm]
    · rw [if_neg hm, if_neg hm,
        renderMeals_grouped (mealsFor db (ds.getD today)) none (by intro e _; simp)]

/-- C7: store initialization is idempotent; after any run the migration
precondition is dead, so the migration runs at most once per store
lifetime; re-running initialization on an already-migrated (or
new-schema) store is the identity, altering no Intake Entry row; on an
old-schema store every intake row — all start with the new field unset —
is backfilled to the old serving value's text with "g" appended, the
other tables untouched; and the backfill changes no field other than
`portion_description`. -/
theorem c7_init_migration (db : DB) :
    init_database (init_database db) = init_database db
    ∧ ((init_database db).hasServingCol && !(init_database db).hasPortionCol) = false
    ∧ (db.tablesExist = true → db.hasPortionCol = true → init_database db = db)
    ∧ (db.tablesExist = true → db.hasServingCol = true → db.hasPortionCol = false →
        (init_database db).daily_intake = db.daily_intake.map migrateRow
        ∧ (init_database db).hasPortionCol = true
        ∧ (init_database db).foods = db.foods
        ∧ (init_database db).daily_goals = db.daily_goals)
    ∧ (∀ e : IntakeEntry,
        (migrateRow e).id = e.id ∧ (migrateRow e).date = e.date
        ∧ (migrateRow e).food_name = e.food_name
        ∧ (migrateRow e).serving_size_g = e.serving_size_g
        ∧ (migrateRow e).calories = e.calories ∧ (migrateRow e).protein = e.protein
        ∧ (migrateRow e).carbs = e.carbs ∧ (migrateRow e).fat = e.fat
        ∧ (migrateRow e).meal_type = e.meal_type
        ∧ (migrateRow e).created_at = e.created_at
        ∧ (migrateRow e).portion_description = servingText e.serving_size_g) := by
  refine ⟨?_, ?_, ?_, ?_, ?_⟩
  · by_cases h1 : db.tablesExist
    · by_cases h2 : db.hasServingCol && !db.hasPortionCol
      · simp [init_database, h1, h2]
      · simp [init_database, h1, h2]
    · simp [init_database, h1]
  · by_cases h1 : db.tablesExist
    · by_cases h2 : db.hasServingCol && !db.hasPortionCol
      · simp [init_database, h1, h2]
      · simp [init_database, h1, h2]
    · simp [init_database, h1]
  · intro h1 h2
    simp [init_database, h1, h2]
  · intro h1 h2 h3
    have hcond : (db.hasServingCol && !db.hasPortionCol) = true := by
      simp [h2, h3]
    refine ⟨?_, ?_, ?_, ?_⟩ <;> simp only [init_database, h1, if_pos h1, hcond] <;>
      simp [hcond]
    intro a _
    simp [migrateRow]
  · intro e
    refine ⟨rfl, rfl, rfl, rfl, rfl, rfl, rfl, rfl, rfl, rfl, rfl⟩

/-- C7 witness: the theorem applied to a concrete old-schema store and a
concrete already-migrated store, every hypothesis discharged by
evaluation. -/
theorem c7_witness :
    (oldDB.tablesExist = true ∧ oldDB.hasServingCol = true ∧ oldDB.hasPortionCol = false)
    ∧ (init_database oldDB).daily_intake = [oldRow].map migrateRow
    ∧ (migDB.tablesExist = true ∧ migDB.hasPortionCol = true)
    ∧ init_database migDB = migDB
    ∧ init_database (init_database oldDB) = init_database oldDB := by
  exact ⟨⟨rfl, rfl, rfl⟩, ((c7_init_migration oldDB).2.2.2.1 rfl rfl rfl).1, ⟨rfl, rfl⟩,
    (c7_init_migration migDB).2.2.1 rfl rfl, (c7_init_migration oldDB).1⟩

theorem foodsSortedByName_isEmpty (db : DB) :
    (foodsSortedByName db).isEmpty = db.foods.isEmpty := by
  cases hf : db.foods with
  | nil =>
    rw [foodsSortedByName, hf]
    rfl
  | cons a t =>
    have hlen := (List.perm_insertionSort (fun a b : Food => a.name ≤ b.name)
      db.foods).length_eq
    rw [hf] at hlen
    rw [foodsSortedByName, hf]
    simp only [List.isEmpty_cons]
    apply List.isEmpty_eq_false.mpr
    intro h0
    rw [h0] at hlen
    simp at hlen

theorem lead_lookupAll (db : DB) :
    lead (lookupAll db) = if db.foods.isEmpty then some '📝' else some '🍎' := by
  show lead (if (foodsSortedByName db).isEmpty then noFoodsYetMsg
    else renderFoods (foodsSortedByName db)) = _
  rw [foodsSortedByName_isEmpty]
  by_cases h : db.foods.isEmpty
  · rw [if_pos h, if_pos h]
    rfl
  · rw [if_neg h, if_neg h]
    rfl

set_option maxHeartbeats 2000000 in
/-- C8 (amended): every operation is total — a storage fault surfaces only
as a returned message, never as an exception — and each fault message
leads with the failure marker ❌. Fault-free results lead with a success
marker (✅ 🍎 📝 🍽 📁), with two exceptions that also lead with ❌: the
duplicate registration, which the error taxonomy does classify as a
failure, and the zero-match named lookup, which is an empty-result report
rather than a failure — so a caller inspecting only the leading marker
over-approximates failure on that one result. -/
theorem c8_leading_markers (db : DB) (err today dbPath fn pd n : String)
    (c p b f : Rat) (mt ds nArg : Option String) (fileExists : Bool) (fileSize : Nat) :
    lead (set_daily_goals db (some err) today c p b f ds).2 = some '❌'
    ∧ lead (set_daily_goals db none today c p b f ds).2 = some '✅'
    ∧ lead (add_food_to_database db (some err) fn c p b f).2 = some '❌'
    ∧ lead (add_food_to_database db none fn c p b f).2
        = (if db.foods.any fun g => g.name = fn then some '❌' else some '✅')
    ∧ lead (lookup_food db (some err) nArg) = some '❌'
    ∧ lead (lookup_food db none (some n))
        = (if n = "" then (if db.foods.isEmpty then some '📝' else some '🍎')
           else if (lookupMatches db n).isEmpty then some '❌' else some '🍎')
    ∧ lead (lookup_food db none none)
        = (if db.foods.isEmpty then some '📝' else some '🍎')
    ∧ lead (log_food_intake db (some err) today fn c p b f pd mt ds).2 = some '❌'
    ∧ lead (log_food_intake db none today fn c p b f pd mt ds).2 = some '✅'
    ∧ lead (get_database_info db (some err) dbPath fileExists fileSize) = some '❌'
    ∧ lead (get_database_info db none dbPath fileExists fileSize) = some '📁'
    ∧ lead (review_meals db (some err) today ds) = some '❌'
    ∧ lead (review_meals db none today ds) = some '🍽' := by
  refine ⟨rfl, rfl, rfl, ?_, ?_, ?_, ?_, rfl, rfl, rfl, ?_, rfl, ?_⟩
  · by_cases h : db.foods.any fun g => g.name = fn
    · rw [if_pos h]
      show lead (if db.foods.any fun g => g.name = fn then _ else _ : DB × String).2 = _
      rw [if_pos h]
      rfl
    · rw [if_neg h]
      show lead (if db.foods.any fun g => g.name = fn then _ else _ : DB × String).2 = _
      rw [if_neg h]
      rfl
  · cases nArg <;> rfl
  · show lead (if n = "" then lookupAll db
      else
        if (lookupMatches db n).isEmpty then noMatchMsg n
        else renderFoods (lookupMatches db n)) = _
    by_cases h : n = ""
    · rw [if_pos h, if_pos h, lead_lookupAll]
    · rw [if_neg h, if_neg h]
      by_cases h2 : (lookupMatches db n).isEmpty
      · rw [if_pos h2, if_pos h2]
        rfl
      · rw [if_neg h2, if_neg h2]
        rfl
  · exact lead_lookupAll db
  · show lead (if fileExists then _ else _ : String) = _
    by_cases h : fileExists
    · rw [if_pos h]
      rfl
    · rw [if_neg h]
      rfl
  · show lead (if (mealsFor db (ds.getD today)).isEmpty then noMealsMsg (ds.getD today)
      else mealsHeader (ds.getD today) ++ renderMeals none (mealsFor db (ds.getD today)))
      = _
    by_cases h : (mealsFor db (ds.getD today)).isEmpty
    · rw [if_pos h]
      rfl
    · rw [if_neg h]
      rfl

/-- C8 counterexample: the fault-free zero-match lookup — a non-failure,
empty-result report outside the error taxonomy — returns a text led by
the same ❌ marker as a genuine storage-failure result, so the leading
marker does not discriminate failures from non-failures. -/
theorem c8_counterexample :
    lookup_food emptyDB none (some "apple") = noMatchMsg "apple"
    ∧ lead (noMatchMsg "apple") = some '❌'
    ∧ lead (lookup_food emptyDB (some "disk I/O error") (some "apple")) = some '❌'
    ∧ lookup_food emptyDB none (some "apple")
        ≠ lookup_food emptyDB (some "disk I/O error") (some "apple") := by
  exact ⟨rfl, rfl, rfl, by decide⟩

end MacroTracker
